import Mathlib

/-!
# go-xerror: verification of the augmented-error data model

Shallow embedding of the `xerror` package (two revisions present in the
repository):

* `V1` models `src/xerror/error.go` / `src/xerror/stack.go`: an error is a
  list of plain string messages, plus debug objects and a stack trace.
* `V2` models `src/unnamed/part_004`: an error is a rendered message, a
  chain of format templates, debug objects and a stack trace; construction
  formats the template against the arguments with `safeSprintf`.

External collaborators are made explicit inputs: stack capture
(`runtime.Callers` + frame description) is passed in as a list, the Go
`fmt.Sprintf` primitive is modelled for the verb set the package exercises
(`%v` placeholders on string arguments and the `%%` escape, with Go's
`%!v(MISSING)` marker for missing arguments and `%!(EXTRA ...)` suffix for
unconsumed ones), and a pre-compiled regular expression is modelled as the
full-match language it accepts, with `MatchString` performing
search-anywhere over substrings. Debug objects (`interface{}` values) are
modelled as strings.
-/

set_option autoImplicit false

/-- Join a list of strings with the `": "` separator; models Go
`strings.Join(l, ": ")` as used by `(*xerror).Error` in v1 and the wrap
chain rendering in v2. -/
def joinColon : List String → String
  | [] => ""
  | [s] => s
  | s :: rest => s ++ ": " ++ joinColon rest

namespace V2

/-- Go's marker rendered by `fmt.Sprintf` for a `%v` placeholder with no
corresponding argument. -/
def missingMarker : List Char := "%!v(MISSING)".data

/-- Go's suffix rendered by `fmt.Sprintf` when arguments remain after the
format string is exhausted (string arguments render as `string=x`). -/
def extraMarker (args : List String) : List Char :=
  ("%!(EXTRA " ++ String.intercalate ", " (args.map (fun a => "string=" ++ a)) ++ ")").data

/-- Model of `fmt.Sprintf` over the verb set used by the package: `%%`
renders a literal `%` consuming nothing, `%v` renders the next string
argument (or `%!v(MISSING)` when none remains), every other character is
copied, and leftover arguments render the `%!(EXTRA ...)` suffix. -/
def sprintf : List Char → List String → List Char
  | '%' :: '%' :: rest, args => '%' :: sprintf rest args
  | '%' :: 'v' :: rest, a :: args => a.data ++ sprintf rest args
  | '%' :: 'v' :: rest, [] => missingMarker ++ sprintf rest []
  | c :: rest, args => c :: sprintf rest args
  | [], [] => []
  | [], args => extraMarker args

/-- Number of `%` characters in the format string; models
`strings.Count(format, "%")`. -/
def countPct (s : List Char) : Nat := s.countP (· == '%')

/-- Number of non-overlapping `%%` occurrences, scanned left to right;
models `strings.Count(format, "%%")`. -/
def countDouble : List Char → Nat
  | '%' :: '%' :: rest => countDouble rest + 1
  | _ :: rest => countDouble rest
  | [] => 0

/-- The argument-count bound computed inside `safeSprintf`:
`strings.Count(format, "%") - strings.Count(format, "%%")*2`. -/
def numPlaceholders (format : String) : Nat :=
  countPct format.data - 2 * countDouble format.data

/-- `safeSprintf` from `src/unnamed/part_004`: truncate the argument list
to the placeholder bound, then format. -/
def safeSprintf (format : String) (v : List String) : String :=
  String.mk (sprintf format.data (if v.length > numPlaceholders format then v.take (numPlaceholders format) else v))

/-- A format string is well formed when every `%` begins a `%v`
placeholder or a `%%` escape (the verb set modelled by `sprintf`). -/
def wfFmt : List Char → Bool
  | [] => true
  | '%' :: '%' :: rest => wfFmt rest
  | '%' :: 'v' :: rest => wfFmt rest
  | '%' :: _ => false
  | _ :: rest => wfFmt rest

/-- The number of `%v` placeholders not part of a `%%` escape: the `P` of
the specification. -/
def nverbs : List Char → Nat
  | '%' :: '%' :: rest => nverbs rest
  | '%' :: 'v' :: rest => nverbs rest + 1
  | _ :: rest => nverbs rest
  | [] => 0

/-- Number of `%!v(MISSING)` markers emitted by `sprintf` on the given
format and arguments. -/
def sprintfMissing : List Char → List String → Nat
  | '%' :: '%' :: rest, args => sprintfMissing rest args
  | '%' :: 'v' :: rest, _ :: args => sprintfMissing rest args
  | '%' :: 'v' :: rest, [] => sprintfMissing rest [] + 1
  | _ :: rest, args => sprintfMissing rest args
  | [], _ => 0

/-- The augmented error of `src/unnamed/part_004`: cached rendered
message, format-template chain (outermost first), debug objects, stack. -/
structure Xerror where
  msg : String
  fmts : List String
  dbg : List String
  stack : List String
deriving DecidableEq

/-- A Go `error` value handed to `Wrap` or the top-level classification
functions: either a plain native error (carrying its rendered text) or an
augmented `*xerror`. -/
inductive GoErr
  | native (text : String)
  | augmented (x : Xerror)
deriving DecidableEq

/-- `New` from `src/unnamed/part_004`. Stack capture is an external
collaborator (`newStack()`), so the captured frames are an explicit input
`stk`. `nilToEmpty` is the identity on Lean lists. -/
def New (format : String) (v : List String) (stk : List String) : Xerror :=
  { msg := safeSprintf format v
    fmts := [format]
    dbg := v
    stack := stk }

/-- `cloneOrNew` from `src/unnamed/part_004`: clone an augmented error
(value identity in the embedding), or build a fresh error whose single
template is the native error's text, capturing a stack at the call site. -/
def cloneOrNew : GoErr → List String → Xerror
  | .augmented x, _ => x
  | .native t, stk => New t [] stk

/-- `Wrap` from `src/unnamed/part_004` applied to a non-nil error:
`fmt.Sprintf("%v: %v", safeSprintf(format, v), xerr.msg)` prepends the new
rendered fragment, the template is prepended to the chain, and the new
arguments are prepended to the debug objects. -/
def Wrap (err : GoErr) (format : String) (v : List String) (stk : List String) : Xerror :=
  { msg := safeSprintf format v ++ ": " ++ (cloneOrNew err stk).msg
    fmts := format :: (cloneOrNew err stk).fmts
    dbg := v ++ (cloneOrNew err stk).dbg
    stack := (cloneOrNew err stk).stack }

/-- The augmented errors reachable through the public constructors: `New`,
and `Wrap` over a native error or an already-reachable augmented error. -/
inductive Reachable : Xerror → Prop
  | new (f : String) (v stk : List String) : Reachable (New f v stk)
  | wrapNative (t f : String) (v stk : List String) : Reachable (Wrap (.native t) f v stk)
  | wrapAug (x : Xerror) (f : String) (v stk : List String) :
      Reachable x → Reachable (Wrap (.augmented x) f v stk)

theorem nverbs_cons_ne (c : Char) (rest : List Char) (hc : c ≠ '%') :
    nverbs (c :: rest) = nverbs rest := by
  conv_lhs => rw [nverbs.eq_def]
  split <;> simp_all

theorem sprintf_cons_ne (c : Char) (rest : List Char) (v : List String) (hc : c ≠ '%') :
    sprintf (c :: rest) v = c :: sprintf rest v := by
  conv_lhs => rw [sprintf.eq_def]
  split <;> simp_all

theorem wfFmt_cons_ne (c : Char) (rest : List Char) (hc : c ≠ '%') :
    wfFmt (c :: rest) = wfFmt rest := by
  conv_lhs => rw [wfFmt.eq_def]
  split <;> simp_all

/-- On a well-formed format string, the bound computed by `safeSprintf`
(`%` count minus twice the `%%` count) is exactly the number of `%v`
placeholders. -/
theorem countPct_eq_nverbs (s : List Char) (h : wfFmt s = true) :
    countPct s = nverbs s + 2 * countDouble s := by
  induction s using wfFmt.induct <;>
    simp_all [wfFmt, nverbs, countDouble, countPct, List.countP_cons] <;> omega

/-- `sprintf` emits one `%!v(MISSING)` marker per placeholder beyond the
supplied arguments. -/
theorem sprintfMissing_eq (s : List Char) (h : wfFmt s = true) :
    ∀ v : List String, sprintfMissing s v = nverbs s - min (nverbs s) v.length := by
  induction s using wfFmt.induct <;> intro v <;> cases v <;>
    simp_all [wfFmt, nverbs, sprintfMissing] <;> omega

/-- When fewer arguments than placeholders are supplied, the rendered
output contains the `%!v(MISSING)` marker. -/
theorem missingMarker_mem_sprintf (s : List Char) (h : wfFmt s = true) :
    ∀ v : List String, v.length < nverbs s → missingMarker <:+: sprintf s v := by
  induction s using wfFmt.induct <;> intro v hv
  case case1 => simp [nverbs] at hv
  case case2 rest ih =>
    simp only [wfFmt] at h
    have := ih h v (by simpa [nverbs] using hv)
    simpa only [sprintf] using this.trans (List.infix_cons (List.infix_refl _))
  case case3 rest ih =>
    simp only [wfFmt] at h
    cases v with
    | nil =>
      simpa only [sprintf] using (List.prefix_append missingMarker (sprintf rest [])).isInfix
    | cons a as =>
      have hlen : as.length < nverbs rest := by
        simp [nverbs] at hv
        omega
      have h1 := ih h as hlen
      have h2 : sprintf rest as <:+: a.data ++ sprintf rest as :=
        (List.suffix_append a.data (sprintf rest as)).isInfix
      simpa only [sprintf] using h1.trans h2
  case case4 => simp_all [wfFmt]
  case case5 c rest h1 h2 h3 ih =>
    have hc : c ≠ '%' := fun hh => h3 hh
    rw [wfFmt_cons_ne c rest hc] at h
    rw [nverbs_cons_ne c rest hc] at hv
    rw [sprintf_cons_ne c rest v hc]
    exact (ih h v hv).trans (List.infix_cons (List.infix_refl _))

/-- Every reachable error has at least one template in its chain. -/
theorem Reachable.fmts_ne_nil {e : Xerror} (h : Reachable e) : e.fmts ≠ [] := by
  cases h <;> simp [New, Wrap, cloneOrNew]

end V2

example : V2.safeSprintf "fmt %% %v %v" ["p2", "p1", "d2", "d1"] = "fmt % p2 p1" := by decide
example : V2.safeSprintf "fmt %v %v" ["p1"] = "fmt p1 %!v(MISSING)" := by decide
example : V2.numPlaceholders "fmt %% %v %v" = 2 := by decide
example : V2.wfFmt "fmt %% %v %v".data = true := by decide
example : (V2.Wrap (.augmented (V2.New "fmt %v" ["p1", "d1"] [])) "fmt2 %% %v %v" ["p3", "p2", "d3", "d2"] []).msg = "fmt2 % p3 p2: fmt p1" := by decide
example : (V2.Wrap (.native "ew") "fmt %% %v %v" ["p2", "p1"] []).msg = "fmt % p2 p1: ew" := by decide

/-- A pre-compiled regular expression, modelled as the full-match language
it accepts (`Pattern compilation is the caller's responsibility`, spec §7):
a decidable set of strings. -/
def Pattern : Type := String → Bool

/-- Go `(*regexp.Regexp).MatchString`: search-anywhere semantics — true
iff some contiguous substring of `s` is in the pattern's language. -/
def matchString (p : Pattern) (s : String) : Bool :=
  s.data.tails.any (fun t => t.inits.any (fun u => p (String.mk u)))

/-- `MatchString` succeeds exactly when some infix of the subject string
is accepted by the pattern — search-anywhere, not full-match. -/
theorem matchString_iff (p : Pattern) (s : String) :
    matchString p s = true ↔ ∃ u : List Char, u <:+: s.data ∧ p (String.mk u) = true := by
  simp only [matchString, List.any_eq_true, List.mem_tails, List.mem_inits]
  constructor
  · rintro ⟨t, ht, u, hu, hp⟩
    exact ⟨u, List.infix_iff_prefix_suffix.mpr ⟨t, hu, ht⟩, hp⟩
  · rintro ⟨u, hu, hp⟩
    obtain ⟨t, hut, hts⟩ := List.infix_iff_prefix_suffix.mp hu
    exact ⟨t, hts, u, hut, hp⟩

namespace V1

/-- The augmented error of `src/xerror/error.go`: plain message list,
debug objects (modelled as strings) and stack trace. -/
structure Xerror where
  messages : List String
  debug : List String
  stack : List String
deriving DecidableEq

/-- A Go `error` value: a plain native error carrying its rendered text,
or an augmented `*xerror`. -/
inductive GoErr
  | native (text : String)
  | augmented (x : Xerror)
deriving DecidableEq

/-- `New` from `src/xerror/error.go`: stores the given messages verbatim,
an empty debug slice, and the externally captured stack `stk`. -/
def New (messages : List String) (stk : List String) : Xerror :=
  { messages := messages
    debug := []
    stack := stk }

/-- `(*xerror).Error()`: the messages joined with `": "`. -/
def Xerror.render (e : Xerror) : String := joinColon e.messages

/-- `err.Error()` on a possibly-augmented error. -/
def GoErr.render : GoErr → String
  | .native t => t
  | .augmented x => x.render

/-- Result of a wrap operation: a returned augmented error, a returned
nil, or a runtime panic (nil-interface dereference). -/
inductive WrapOutcome
  | ok (x : Xerror)
  | nilOut
  | panicked
deriving DecidableEq

/-- `Wrap` from `src/xerror/error.go`: nil propagates as nil, an
augmented error is returned unmodified, a native error becomes a fresh
one-message error with a stack captured at the wrap site. -/
def Wrap : Option GoErr → List String → WrapOutcome
  | none, _ => .nilOut
  | some (.augmented x), _ => .ok x
  | some (.native t), stk => .ok (New [t] stk)

/-- `(*xerror).Copy()`: fresh backing storage for all three sequences; in
the value semantics of the embedding this is the identical value. -/
def Xerror.Copy (e : Xerror) : Xerror :=
  { messages := e.messages
    debug := e.debug
    stack := e.stack }

/-- `(*xerror).WithMessages`: copy with the given messages prepended. -/
def Xerror.WithMessages (e : Xerror) (message : List String) : Xerror :=
  { e.Copy with messages := message ++ e.Copy.messages }

/-- `(*xerror).WithDebug`: copy with the given debug objects prepended. -/
def Xerror.WithDebug (e : Xerror) (debug : List String) : Xerror :=
  { e.Copy with debug := debug ++ e.Copy.debug }

/-- `WrapWith` from `src/xerror/error.go`: nil panics (the type assertion
fails and `err.Error()` dereferences a nil interface); otherwise copy or
build the error, prepend the message, and prepend debug when non-empty. -/
def WrapWith : Option GoErr → String → List String → List String → WrapOutcome
  | none, _, _, _ => .panicked
  | some (.augmented x), message, debug, _ =>
      let n := { x.Copy with messages := message :: x.Copy.messages }
      .ok (if 0 < debug.length then { n with debug := debug ++ n.debug } else n)
  | some (.native t), message, debug, stk =>
      let n := { New [t] stk with messages := message :: (New [t] stk).messages }
      .ok (if 0 < debug.length then { n with debug := debug ++ n.debug } else n)

/-- `(*xerror).Is`: compares `e.messages[0]`; indexing an empty slice
panics, modelled as `none`. -/
def Xerror.Is (e : Xerror) (message : String) : Option Bool :=
  e.messages.head?.map (fun f => f == message)

/-- `(*xerror).IsPattern`: matches the pattern against `e.messages[0]`;
indexing an empty slice panics, modelled as `none`. -/
def Xerror.IsPattern (e : Xerror) (p : Pattern) : Option Bool :=
  e.messages.head?.map (fun f => matchString p f)

/-- `(*xerror).Contains`: true iff some message equals the argument. -/
def Xerror.Contains (e : Xerror) (message : String) : Bool :=
  e.messages.any (fun f => f == message)

/-- `(*xerror).ContainsPattern`: true iff some message matches. -/
def Xerror.ContainsPattern (e : Xerror) (p : Pattern) : Bool :=
  e.messages.any (fun f => matchString p f)

/-- Top-level `Is`: delegate to the method on an augmented error,
otherwise compare `err.Error()`; a nil error makes `err.Error()` panic
(`none`). -/
def Is : Option GoErr → String → Option Bool
  | none, _ => none
  | some (.augmented x), message => x.Is message
  | some (.native t), message => some (t == message)

/-- Top-level `IsPattern`: like `Is` with regexp matching. -/
def IsPattern : Option GoErr → Pattern → Option Bool
  | none, _ => none
  | some (.augmented x), p => x.IsPattern p
  | some (.native t), p => some (matchString p t)

/-- Top-level `Contains`: scan all messages of an augmented error,
otherwise compare `err.Error()`; nil panics (`none`). -/
def Contains : Option GoErr → String → Option Bool
  | none, _ => none
  | some (.augmented x), message => some (x.Contains message)
  | some (.native t), message => some (t == message)

/-- Top-level `ContainsPattern`: like `Contains` with regexp matching. -/
def ContainsPattern : Option GoErr → Pattern → Option Bool
  | none, _ => none
  | some (.augmented x), p => some (x.ContainsPattern p)
  | some (.native t), p => some (matchString p t)

end V1

/-- `maxStackLen` from `src/xerror/stack.go`. -/
def maxStackLen : Nat := 100

/-- `newStack` from `src/xerror/stack.go`: `runtime.Callers` copies at
most `maxStackLen` program counters of the current call stack (`callers`,
an external input) into the fixed-size buffer, and each is described as a
`file:line (0xaddr)` string by the external `describe` collaborator
(`runtime.FuncForPC` / `FileLine` / `fmt.Sprintf`). -/
def newStack (callers : List Nat) (describe : Nat → String) : List String :=
  (callers.take maxStackLen).map describe

/-- C1: for a template `T` in the modelled verb set (every `%` starts a
`%v` placeholder or a `%%` escape, each `%%` rendering one literal `%` and
consuming nothing) with `P = nverbs T.data` placeholders, `New` substitutes
only the first `min(P, len A)` arguments into the rendered message, keeps
all of `A` (in original order, consumed first) as the debug sequence, the
truncation bound computed by `safeSprintf` equals `P`, and when fewer than
`P` arguments are supplied construction still succeeds, the rendering
containing Go's missing-argument marker, one marker per missing
placeholder, while debug still equals exactly `A`. -/
theorem claim_C1_new_formatting (T : String) (A stk : List String)
    (h : V2.wfFmt T.data = true) :
    (V2.New T A stk).dbg = A
    ∧ V2.numPlaceholders T = V2.nverbs T.data
    ∧ (V2.New T A stk).msg
        = String.mk (V2.sprintf T.data (A.take (min (V2.nverbs T.data) A.length)))
    ∧ (A.length < V2.nverbs T.data →
        V2.missingMarker <:+: (V2.New T A stk).msg.data
        ∧ V2.sprintfMissing T.data A = V2.nverbs T.data - A.length) := by
  have hnum : V2.numPlaceholders T = V2.nverbs T.data := by
    have := V2.countPct_eq_nverbs T.data h
    simp only [V2.numPlaceholders]
    omega
  have harg : (if A.length > V2.numPlaceholders T then A.take (V2.numPlaceholders T) else A)
      = A.take (min (V2.nverbs T.data) A.length) := by
    rw [hnum]
    by_cases hlen : A.length > V2.nverbs T.data
    · rw [if_pos hlen, min_eq_left (le_of_lt hlen)]
    · rw [if_neg hlen, min_eq_right (by omega), List.take_length]
  refine ⟨rfl, hnum, ?_, fun hlt => ⟨?_, ?_⟩⟩
  · show V2.safeSprintf T A = _
    rw [V2.safeSprintf, harg]
  · show V2.missingMarker <:+: (V2.safeSprintf T A).data
    rw [V2.safeSprintf, harg, min_eq_right (le_of_lt hlt), List.take_length]
    exact V2.missingMarker_mem_sprintf T.data h A hlt
  · rw [V2.sprintfMissing_eq T.data h A, min_eq_right (le_of_lt hlt)]

/-- C1 witness: `New "a %v %v" ["x"]` — one argument for two placeholders. -/
theorem claim_C1_witness :
    (V2.New "a %v %v" ["x"] []).dbg = ["x"]
    ∧ V2.numPlaceholders "a %v %v" = V2.nverbs "a %v %v".data
    ∧ (V2.New "a %v %v" ["x"] []).msg
        = String.mk (V2.sprintf "a %v %v".data
            ((["x"] : List String).take (min (V2.nverbs "a %v %v".data) (["x"] : List String).length)))
    ∧ ((["x"] : List String).length < V2.nverbs "a %v %v".data →
        V2.missingMarker <:+: (V2.New "a %v %v" ["x"] []).msg.data
        ∧ V2.sprintfMissing "a %v %v".data ["x"]
            = V2.nverbs "a %v %v".data - (["x"] : List String).length) :=
  claim_C1_new_formatting "a %v %v" ["x"] [] (by decide)

/-- C2: wrapping an already-augmented error prepends the new template to
the chain, prepends all new arguments to the debug sequence, inherits the
stack unchanged, and renders the new fragment followed by `": "` and the
old rendered message; in particular `Wrap(New("inner %v","x"), "outer %v",
"y")` renders `"outer y: inner x"` with templates `["outer %v", "inner
%v"]` and debug `["y", "x"]`. -/
theorem claim_C2_wrap_extends_chain (e : V2.Xerror) (T : String)
    (A stk s1 s2 : List String) :
    (V2.Wrap (.augmented e) T A stk).fmts = T :: e.fmts
    ∧ (V2.Wrap (.augmented e) T A stk).dbg = A ++ e.dbg
    ∧ (V2.Wrap (.augmented e) T A stk).stack = e.stack
    ∧ (V2.Wrap (.augmented e) T A stk).msg = V2.safeSprintf T A ++ ": " ++ e.msg
    ∧ (V2.Wrap (.augmented (V2.New "inner %v" ["x"] s1)) "outer %v" ["y"] s2).msg
        = "outer y: inner x"
    ∧ (V2.Wrap (.augmented (V2.New "inner %v" ["x"] s1)) "outer %v" ["y"] s2).fmts
        = ["outer %v", "inner %v"]
    ∧ (V2.Wrap (.augmented (V2.New "inner %v" ["x"] s1)) "outer %v" ["y"] s2).dbg
        = ["y", "x"] :=
  ⟨rfl, rfl, rfl, rfl, rfl, rfl, rfl⟩

/-- C8: the captured stack trace is bounded by `maxStackLen = 100` frames
(`runtime.Callers` fills a 100-entry buffer); deeper call stacks are
silently truncated, and errors built by `New` (both revisions) or by
wrapping a native error carry that bounded stack. -/
theorem claim_C8_stack_bound (callers : List Nat) (describe : Nat → String)
    (msgs v : List String) (f t T : String) :
    (V1.New msgs (newStack callers describe)).stack.length ≤ 100
    ∧ (V2.New T v (newStack callers describe)).stack.length ≤ 100
    ∧ (V2.Wrap (.native t) f v (newStack callers describe)).stack.length ≤ 100
    ∧ (newStack callers describe).length = min callers.length 100 := by
  have hlen : (newStack callers describe).length = min callers.length 100 := by
    simp [newStack, maxStackLen, Nat.min_comm]
  refine ⟨?_, ?_, ?_, hlen⟩ <;>
    simp only [V1.New, V2.New, V2.Wrap, V2.cloneOrNew, hlen] <;> omega

/-- C3: on an augmented error with a non-empty message chain, the method
`Is` is true exactly when the outermost (first) chain entry equals the
argument — never comparing the rendered text; the top-level `Is` on a
plain native error compares its rendered text for exact equality. -/
theorem claim_C3_is_outermost (e : V1.Xerror) (f m t n : String) (rest : List String)
    (h : e.messages = f :: rest) :
    (V1.Xerror.Is e m = some true ↔ f = m)
    ∧ (V1.Is (some (.native t)) n = some true ↔ t = n) := by
  constructor
  · simp [V1.Xerror.Is, h]
  · simp [V1.Is]

/-- C3 witness: chain `["a", "b"]` and a native error `"t"`. -/
theorem claim_C3_witness :
    (V1.Xerror.Is ⟨["a", "b"], [], []⟩ "a" = some true ↔ "a" = "a")
    ∧ (V1.Is (some (.native "t")) "t" = some true ↔ "t" = "t") :=
  claim_C3_is_outermost ⟨["a", "b"], [], []⟩ "a" "a" "t" "t" ["b"] rfl

/-- C4: `Contains` is true exactly when some entry of the whole chain
(outermost to innermost) equals the argument, and `ContainsPattern` is
true exactly when some entry has a substring accepted by the pre-compiled
pattern — search-anywhere, not full-match. -/
theorem claim_C4_contains_whole_chain (e : V1.Xerror) (m : String) (p : Pattern) :
    (V1.Xerror.Contains e m = true ↔ m ∈ e.messages)
    ∧ (V1.Xerror.ContainsPattern e p = true
        ↔ ∃ f ∈ e.messages, ∃ u : List Char, u <:+: f.data ∧ p (String.mk u) = true) := by
  constructor
  · simp [V1.Xerror.Contains, List.any_eq_true]
  · simp [V1.Xerror.ContainsPattern, List.any_eq_true, matchString_iff]

/-- C9: outermost-scope matching implies whole-chain matching, for both
exact and pattern classification, on any non-empty chain. -/
theorem claim_C9_is_implies_contains (e : V1.Xerror) (f m : String) (rest : List String)
    (p : Pattern) (h : e.messages = f :: rest) :
    (V1.Xerror.Is e m = some true → V1.Xerror.Contains e m = true)
    ∧ (V1.Xerror.IsPattern e p = some true → V1.Xerror.ContainsPattern e p = true) := by
  constructor <;> intro hi <;>
    simp_all [V1.Xerror.Is, V1.Xerror.IsPattern, V1.Xerror.Contains, V1.Xerror.ContainsPattern]

/-- C9 witness: chain `["a", "b"]`, message `"a"`, pattern accepting
exactly `"a"`. -/
theorem claim_C9_witness :
    (V1.Xerror.Is ⟨["a", "b"], [], []⟩ "a" = some true
      → V1.Xerror.Contains ⟨["a", "b"], [], []⟩ "a" = true)
    ∧ (V1.Xerror.IsPattern ⟨["a", "b"], [], []⟩ (fun s => s == "a") = some true
      → V1.Xerror.ContainsPattern ⟨["a", "b"], [], []⟩ (fun s => s == "a") = true) :=
  claim_C9_is_implies_contains ⟨["a", "b"], [], []⟩ "a" "a" ["b"] (fun s => s == "a") rfl

/-- C10: the top-level classification functions dereference a nil error
and fail (modelled `none`), while on any non-nil error — native, or
augmented with a non-empty message chain — they return a boolean. -/
theorem claim_C10_nil_safety (m t : String) (p : Pattern) (e : V1.Xerror)
    (h : e.messages ≠ []) :
    (V1.Is none m = none ∧ V1.IsPattern none p = none
      ∧ V1.Contains none m = none ∧ V1.ContainsPattern none p = none)
    ∧ ((V1.Is (some (.native t)) m).isSome = true
      ∧ (V1.IsPattern (some (.native t)) p).isSome = true
      ∧ (V1.Contains (some (.native t)) m).isSome = true
      ∧ (V1.ContainsPattern (some (.native t)) p).isSome = true)
    ∧ ((V1.Is (some (.augmented e)) m).isSome = true
      ∧ (V1.IsPattern (some (.augmented e)) p).isSome = true
      ∧ (V1.Contains (some (.augmented e)) m).isSome = true
      ∧ (V1.ContainsPattern (some (.augmented e)) p).isSome = true) := by
  cases hm : e.messages with
  | nil => exact absurd hm h
  | cons f rest =>
    refine ⟨⟨rfl, rfl, rfl, rfl⟩, ⟨rfl, rfl, rfl, rfl⟩, ?_⟩
    simp [V1.Is, V1.IsPattern, V1.Contains, V1.ContainsPattern,
      V1.Xerror.Is, V1.Xerror.IsPattern, hm]

/-- C10 witness: nil, the native error `"t"`, and an augmented error with
chain `["a"]`. -/
theorem claim_C10_witness :
    (V1.Is none "m" = none ∧ V1.IsPattern none (fun s => s == "m") = none
      ∧ V1.Contains none "m" = none ∧ V1.ContainsPattern none (fun s => s == "m") = none)
    ∧ ((V1.Is (some (.native "t")) "m").isSome = true
      ∧ (V1.IsPattern (some (.native "t")) (fun s => s == "m")).isSome = true
      ∧ (V1.Contains (some (.native "t")) "m").isSome = true
      ∧ (V1.ContainsPattern (some (.native "t")) (fun s => s == "m")).isSome = true)
    ∧ ((V1.Is (some (.augmented ⟨["a"], [], []⟩)) "m").isSome = true
      ∧ (V1.IsPattern (some (.augmented ⟨["a"], [], []⟩)) (fun s => s == "m")).isSome = true
      ∧ (V1.Contains (some (.augmented ⟨["a"], [], []⟩)) "m").isSome = true
      ∧ (V1.ContainsPattern (some (.augmented ⟨["a"], [], []⟩)) (fun s => s == "m")).isSome = true) :=
  claim_C10_nil_safety "m" "t" (fun s => s == "m") ⟨["a"], [], []⟩ (by simp)

theorem joinColon_cons_cons (s t : String) (l : List String) :
    joinColon (s :: t :: l) = s ++ ": " ++ joinColon (t :: l) := rfl

/-- C5: for every reachable v2 error, the cached rendered message is
exactly what re-running the formatter over the template chain and the
per-layer argument slices (whose concatenation is the stored debug
sequence; `safeSprintf` consumes precisely each layer's consumed prefix)
produces, joined outermost-first with `": "` — the cache cannot drift. -/
theorem claim_C5_rendered_message_derivable (e : V2.Xerror) (h : V2.Reachable e) :
    ∃ parts : List (List String),
      parts.length = e.fmts.length
      ∧ e.dbg = parts.flatten
      ∧ e.msg = joinColon (List.zipWith V2.safeSprintf e.fmts parts) := by
  induction h with
  | new f v stk =>
    exact ⟨[v], rfl, by simp [V2.New], rfl⟩
  | wrapNative t f v stk =>
    exact ⟨[v, []], rfl, by simp [V2.Wrap, V2.cloneOrNew, V2.New], rfl⟩
  | wrapAug x f v stk hx ih =>
    obtain ⟨parts, hlen, hdbg, hmsg⟩ := ih
    have hfne := hx.fmts_ne_nil
    refine ⟨v :: parts,
      by simp [V2.Wrap, V2.cloneOrNew, hlen],
      by simp [V2.Wrap, V2.cloneOrNew, hdbg], ?_⟩
    have hWmsg : (V2.Wrap (.augmented x) f v stk).msg
        = V2.safeSprintf f v ++ ": " ++ x.msg := rfl
    have hWfmts : (V2.Wrap (.augmented x) f v stk).fmts = f :: x.fmts := rfl
    rw [hWmsg, hWfmts]
    rcases hf2 : x.fmts with _ | ⟨g, gs⟩
    · exact absurd hf2 hfne
    · rw [hf2] at hmsg hlen
      rcases hp2 : parts with _ | ⟨q, qs⟩
      · rw [hp2] at hlen
        simp at hlen
      · rw [hp2] at hmsg
        rw [List.zipWith_cons_cons, List.zipWith_cons_cons,
          joinColon_cons_cons, hmsg, List.zipWith_cons_cons]

/-- C5 witness: the error `New "a %v" ["x"]`. -/
theorem claim_C5_witness :
    ∃ parts : List (List String),
      parts.length = (V2.New "a %v" ["x"] []).fmts.length
      ∧ (V2.New "a %v" ["x"] []).dbg = parts.flatten
      ∧ (V2.New "a %v" ["x"] []).msg
          = joinColon (List.zipWith V2.safeSprintf (V2.New "a %v" ["x"] []).fmts parts) :=
  claim_C5_rendered_message_derivable _ (V2.Reachable.new "a %v" ["x"] [])

/-- C6 counterexample: v1 `New` accepts an empty variadic message list and
then constructs an augmented error whose message sequence is empty, so
"contains at least one entry after successful construction" fails on the
concrete input `New()`. -/
theorem claim_C6_counterexample : (V1.New [] []).messages = [] := rfl

/-- C6 amended: every augmented error produced by `New` with at least one
message, by `Wrap` of a non-nil error, or by `Copy`, `WithMessages` or
`WithDebug` applied to an error whose message sequence is non-empty, has a
non-empty message sequence. (The claim fails as stated only because v1
`New` also accepts zero messages.) -/
theorem claim_C6_amended_nonempty (m t : String) (ms stk ds : List String)
    (e : V1.Xerror) (he : e.messages ≠ []) :
    (V1.New (m :: ms) stk).messages ≠ []
    ∧ (∀ x, V1.Wrap (some (.native t)) stk = .ok x → x.messages ≠ [])
    ∧ (∀ x, V1.Wrap (some (.augmented e)) stk = .ok x → x.messages ≠ [])
    ∧ (V1.Xerror.Copy e).messages ≠ []
    ∧ (V1.Xerror.WithMessages e ms).messages ≠ []
    ∧ (V1.Xerror.WithDebug e ds).messages ≠ [] := by
  refine ⟨by simp [V1.New], ?_, ?_, he, ?_, he⟩
  · intro x hx
    simp only [V1.Wrap, V1.WrapOutcome.ok.injEq] at hx
    rw [← hx]
    simp [V1.New]
  · intro x hx
    simp only [V1.Wrap, V1.WrapOutcome.ok.injEq] at hx
    rw [← hx]
    exact he
  · simp [V1.Xerror.WithMessages, V1.Xerror.Copy]
    intro hms
    exact he

/-- C6 witness for the amended claim: concrete singleton chains. -/
theorem claim_C6_witness :
    (V1.New ["a"] []).messages ≠ []
    ∧ (∀ x, V1.Wrap (some (.native "t")) [] = .ok x → x.messages ≠ [])
    ∧ (∀ x, V1.Wrap (some (.augmented ⟨["a"], [], []⟩)) [] = .ok x → x.messages ≠ [])
    ∧ (V1.Xerror.Copy ⟨["a"], [], []⟩).messages ≠ []
    ∧ (V1.Xerror.WithMessages ⟨["a"], [], []⟩ []).messages ≠ []
    ∧ (V1.Xerror.WithDebug ⟨["a"], [], []⟩ []).messages ≠ [] :=
  claim_C6_amended_nonempty "a" "t" [] [] [] ⟨["a"], [], []⟩ (by simp)

/-- C7 counterexample: the two v1 wrap operations follow different
nil policies at the same concrete input — `Wrap(nil)` returns nil
silently while `WrapWith(nil, "m")` panics — so no single consistently
chosen policy covers all wrap operations. -/
theorem claim_C7_counterexample :
    ¬ ((V1.Wrap none [] = .panicked ∧ V1.WrapWith none "m" [] [] = .panicked)
      ∨ (V1.Wrap none [] = .nilOut ∧ V1.WrapWith none "m" [] [] = .nilOut)) := by
  decide

/-- C7 amended: each wrap operation has a fixed nil policy of its own —
`Wrap` of nil always returns nil silently, and `WrapWith` of nil always
fails loudly (its documentation states `err` must not be nil) — but the
two policies differ between the operations. -/
theorem claim_C7_amended_policies (m : String) (d stk : List String) :
    V1.Wrap none stk = .nilOut ∧ V1.WrapWith none m d stk = .panicked :=
  ⟨rfl, rfl⟩
